import Mathlib

/-!
# A verification development of the `lnwasi` rtnetlink client library

Shallow embedding of the message codec (`src/message.rs`), the request
builder (`src/request.rs`), the route entity layer (`src/route.rs`) and the
transaction driver (`src/handle.rs`).  Bytes are modelled as `Nat` values
below 256, buffers as `List Nat`, machine integers as `Nat`/`Int` with
explicit reductions modulo `2^w` where the source truncates.  A Rust panic
(out-of-range slice index) is modelled by an `Option` layer: `none` means
the source function panics on that input.  The host is little-endian, as
assumed throughout the source (`to_ne_bytes`, pointer casts of `#[repr(C)]`
structs).
-/

namespace Lnwasi

/-! ## Byte-level helpers -/

/-- Two little-endian bytes of a `u16` value (the effect of
`u16::to_ne_bytes` on a little-endian host). -/
def u16le (n : Nat) : List Nat :=
  [n % 256, n / 256 % 256]

/-- Four little-endian bytes of a `u32` value. -/
def u32le (n : Nat) : List Nat :=
  [n % 256, n / 256 % 256, n / 65536 % 256, n / 16777216 % 256]

/-- Read a `u16` from the first two bytes of a buffer (little endian). -/
def readU16 (buf : List Nat) : Nat :=
  buf.getD 0 0 + 256 * buf.getD 1 0

/-- Read a `u32` from the first four bytes of a buffer (little endian). -/
def readU32 (buf : List Nat) : Nat :=
  buf.getD 0 0 + 256 * buf.getD 1 0 + 65536 * buf.getD 2 0
    + 16777216 * buf.getD 3 0

/-- Reinterpret a `u32` value as a signed `i32` (two's complement), as
`i32::from_ne_bytes` does on the same four bytes. -/
def toI32 (n : Nat) : Int :=
  if n < 2147483648 then (n : Int) else (n : Int) - 4294967296

/-- `utils::align_of`: round `len` up to a multiple of `align_to`.  The
source computes `(len + align_to - 1) & !(align_to - 1)` with a 64-bit
mask; for the power-of-two alignments in use (always 4) this clears the
low bits, i.e. subtracts the remainder. -/
def align_of (len alignTo : Nat) : Nat :=
  (len + alignTo - 1) - (len + alignTo - 1) % alignTo

/-! ## Constants (`src/consts.rs` and the `libc` values the source uses) -/

def NLMSG_ALIGNTO : Nat := 4
def RTA_ALIGNTO : Nat := 4
def NLMSG_ERROR : Nat := 2
def NLMSG_DONE : Nat := 3
def NLMSG_HDRLEN : Nat := 16
def PID_KERNEL : Nat := 0
def RT_ATTR_SIZE : Nat := 4
def ROUTE_MSG_SIZE : Nat := 12
def NLM_F_REQUEST : Nat := 1
def NLM_F_MULTI : Nat := 2
def NLM_F_ACK : Nat := 4
def NLM_F_REPLACE : Nat := 0x100
def NLM_F_EXCL : Nat := 0x200
def NLM_F_CREATE : Nat := 0x400
def NLM_F_APPEND : Nat := 0x800
def NLM_F_DUMP : Nat := 0x300
def RTM_NEWROUTE : Nat := 24
def RTM_DELROUTE : Nat := 25
def RTM_GETROUTE : Nat := 26
def AF_INET : Nat := 2
def AF_INET6 : Nat := 10
def RT_TABLE_MAIN : Nat := 254
def RTPROT_BOOT : Nat := 3
def RT_SCOPE_UNIVERSE : Nat := 0
def RT_SCOPE_NOWHERE : Nat := 255
def RTN_UNICAST : Nat := 1
def RTA_DST : Nat := 1
def RTA_OIF : Nat := 4
def RTA_GATEWAY : Nat := 5
def RTA_PREFSRC : Nat := 7

/-! ## Frame header and receive-buffer parsing (`NetlinkMessage::from`) -/

/-- `NetlinkMessageHeader`: 16 bytes, host byte order. -/
structure NetlinkMessageHeader where
  nlmsg_len : Nat
  nlmsg_type : Nat
  nlmsg_flags : Nat
  nlmsg_seq : Nat
  nlmsg_pid : Nat
  deriving Repr, DecidableEq

/-- The pointer cast `*(buf.as_ptr() as *const NetlinkMessageHeader)`:
read the five header fields from the first 16 bytes (little endian).
Only called when at least 16 bytes remain. -/
def parseHeader (buf : List Nat) : NetlinkMessageHeader where
  nlmsg_len := readU32 buf
  nlmsg_type := readU16 (buf.drop 4)
  nlmsg_flags := readU16 (buf.drop 6)
  nlmsg_seq := readU32 (buf.drop 8)
  nlmsg_pid := readU32 (buf.drop 12)

/-- One step of the `NetlinkMessage::from` loop, with an explicit fuel
argument to keep the recursion structural (each iteration consumes at
least 16 bytes, so `buf.length` fuel always suffices; the fuel-exhausted
branch returns the loop's value on an empty buffer and is reachable only
when the buffer is empty, see `netlinkMessageFromGo_fuel`). -/
def netlinkMessageFromGo :
    Nat → List Nat → Option (List (NetlinkMessageHeader × List Nat))
  | 0, _ => some []
  | fuel + 1, buf =>
    if buf.length < NLMSG_HDRLEN then
      some []
    else if (parseHeader buf).nlmsg_len < NLMSG_HDRLEN then
      none
    else if buf.length < (parseHeader buf).nlmsg_len then
      none
    else if buf.length < align_of (parseHeader buf).nlmsg_len NLMSG_ALIGNTO then
      none
    else
      match netlinkMessageFromGo fuel
          (buf.drop (align_of (parseHeader buf).nlmsg_len NLMSG_ALIGNTO)) with
      | none => none
      | some rest =>
          some ((parseHeader buf,
            (buf.take (parseHeader buf).nlmsg_len).drop NLMSG_HDRLEN) :: rest)

/-- `NetlinkMessage::from`: walk the receive buffer, reading a header,
slicing the `[16, nlmsg_len)` payload, and advancing by
`align_of(nlmsg_len, 4)` while at least 16 bytes remain.  The source
slices `buf[16..nlmsg_len]` and `buf[len..]` without bounds checks, so a
declared length below 16 or beyond the remaining bytes panics; `none`
models that panic. -/
def netlinkMessageFrom (buf : List Nat) :
    Option (List (NetlinkMessageHeader × List Nat)) :=
  netlinkMessageFromGo buf.length buf

/-- Fuel-indexed companion of `nlBufWellFormed`. -/
def nlBufWellFormedGo : Nat → List Nat → Bool
  | 0, _ => true
  | fuel + 1, buf =>
    if buf.length < NLMSG_HDRLEN then
      true
    else if (parseHeader buf).nlmsg_len < NLMSG_HDRLEN then
      false
    else if buf.length < (parseHeader buf).nlmsg_len then
      false
    else if buf.length < align_of (parseHeader buf).nlmsg_len NLMSG_ALIGNTO then
      false
    else
      nlBufWellFormedGo fuel
        (buf.drop (align_of (parseHeader buf).nlmsg_len NLMSG_ALIGNTO))

/-- The receive buffers on which `NetlinkMessage::from` does not panic:
every message reached has `16 ≤ nlmsg_len` and its aligned length within
the remaining bytes. -/
def nlBufWellFormed (buf : List Nat) : Bool :=
  nlBufWellFormedGo buf.length buf

/-! ## Attribute decoding (`NetlinkRouteAttr::from` and `::map`)

Both return `anyhow::Result` in the source, so the embedding returns
`Option (Except String _)`: the outer `Option` is `none` when the source
panics (out-of-range slice), the inner `Except` carries a surfaced error
— which the source bodies never produce. -/

/-- `RtAttr`: 2-byte length (header + value, pre-padding), 2-byte type. -/
structure RtAttr where
  rta_len : Nat
  rta_type : Nat
  deriving Repr, DecidableEq

/-- The pointer cast `*(buf.as_ptr() as *const RtAttr)` on a little-endian
host; only evaluated when at least 4 bytes remain. -/
def parseRtAttr (buf : List Nat) : RtAttr where
  rta_len := readU16 buf
  rta_type := readU16 (buf.drop 2)

/-- Fuel-indexed body of `NetlinkRouteAttr::from` (decode direction): while
at least 4 bytes remain, read an `RtAttr`, slice the `[4, rta_len)` value
— panicking when `rta_len < 4` or `rta_len` exceeds the remaining bytes —
and advance by `align_of(rta_len, 4)`, panicking when that exceeds the
remaining bytes.  Decoded attributes carry no children.  Each iteration
consumes at least one byte, so `buf.length` fuel suffices and the
fuel-exhausted branch coincides with the empty-buffer result. -/
def rtAttrFromGo :
    Nat → List Nat → Option (Except String (List (RtAttr × List Nat)))
  | 0, _ => some (Except.ok [])
  | fuel + 1, buf =>
    if buf.length < RT_ATTR_SIZE then
      some (Except.ok [])
    else if (parseRtAttr buf).rta_len < RT_ATTR_SIZE then
      none
    else if buf.length < (parseRtAttr buf).rta_len then
      none
    else if buf.length < align_of (parseRtAttr buf).rta_len RTA_ALIGNTO then
      none
    else
      match rtAttrFromGo fuel
          (buf.drop (align_of (parseRtAttr buf).rta_len RTA_ALIGNTO)) with
      | none => none
      | some (Except.error e) => some (Except.error e)
      | some (Except.ok rest) =>
          some (Except.ok ((parseRtAttr buf,
            (buf.take (parseRtAttr buf).rta_len).drop RT_ATTR_SIZE) :: rest))

/-- `NetlinkRouteAttr::from` (decode direction). -/
def rtAttrFrom (buf : List Nat) :
    Option (Except String (List (RtAttr × List Nat))) :=
  rtAttrFromGo buf.length buf

/-- `HashMap::insert`: replace an existing binding for the key, else add
one.  (The model fixes an order on the bindings; `::map` callers only look
bindings up by key.) -/
def mapInsert (k : Nat) (v : List Nat) :
    List (Nat × List Nat) → List (Nat × List Nat)
  | [] => [(k, v)]
  | (k', v') :: rest =>
    if k' = k then (k, v) :: rest else (k', v') :: mapInsert k v rest

/-- Fuel-indexed body of `NetlinkRouteAttr::map`: the same walk as
`::from`, collecting `rta_type → value` bindings into a map. -/
def rtAttrMapGo :
    Nat → List Nat → List (Nat × List Nat) →
      Option (Except String (List (Nat × List Nat)))
  | 0, _, attrs => some (Except.ok attrs)
  | fuel + 1, buf, attrs =>
    if buf.length < RT_ATTR_SIZE then
      some (Except.ok attrs)
    else if (parseRtAttr buf).rta_len < RT_ATTR_SIZE then
      none
    else if buf.length < (parseRtAttr buf).rta_len then
      none
    else if buf.length < align_of (parseRtAttr buf).rta_len RTA_ALIGNTO then
      none
    else
      rtAttrMapGo fuel
        (buf.drop (align_of (parseRtAttr buf).rta_len RTA_ALIGNTO))
        (mapInsert (parseRtAttr buf).rta_type
          ((buf.take (parseRtAttr buf).rta_len).drop RT_ATTR_SIZE) attrs)

/-- `NetlinkRouteAttr::map` (decode direction). -/
def rtAttrMap (buf : List Nat) :
    Option (Except String (List (Nat × List Nat))) :=
  rtAttrMapGo buf.length buf []

/-- The attribute buffers on which `::from` and `::map` do not panic. -/
def rtAttrBufWellFormedGo : Nat → List Nat → Bool
  | 0, _ => true
  | fuel + 1, buf =>
    if buf.length < RT_ATTR_SIZE then
      true
    else if (parseRtAttr buf).rta_len < RT_ATTR_SIZE then
      false
    else if buf.length < (parseRtAttr buf).rta_len then
      false
    else if buf.length < align_of (parseRtAttr buf).rta_len RTA_ALIGNTO then
      false
    else
      rtAttrBufWellFormedGo fuel
        (buf.drop (align_of (parseRtAttr buf).rta_len RTA_ALIGNTO))

def rtAttrBufWellFormed (buf : List Nat) : Bool :=
  rtAttrBufWellFormedGo buf.length buf

/-! ## Attribute encoding (`NetlinkRouteAttr` and `serialize`) -/

/-- `NetlinkRouteAttr`: a typed attribute with an optional list of child
payloads.  The source stores children as boxed `NetlinkRequestData`
values; every child the library constructs (`add_child`) is itself a
`NetlinkRouteAttr`, which is how the tree is modelled here. -/
inductive NetlinkRouteAttr where
  | mk (rta_len rta_type : Nat) (value : List Nat)
      (children : Option (List NetlinkRouteAttr))
  deriving Repr

def NetlinkRouteAttr.rta_len : NetlinkRouteAttr → Nat
  | .mk l _ _ _ => l

def NetlinkRouteAttr.rta_type : NetlinkRouteAttr → Nat
  | .mk _ t _ _ => t

def NetlinkRouteAttr.value : NetlinkRouteAttr → List Nat
  | .mk _ _ v _ => v

def NetlinkRouteAttr.children : NetlinkRouteAttr → Option (List NetlinkRouteAttr)
  | .mk _ _ _ c => c

/-- `NetlinkRouteAttr::new`: `rta_len` is the 4-byte header plus the value
length, truncated to `u16`. -/
def NetlinkRouteAttr.new (rtaType : Nat) (value : List Nat) : NetlinkRouteAttr :=
  .mk ((RT_ATTR_SIZE + value.length) % 65536) rtaType value none

/-- `NetlinkRequestData::len` for `NetlinkRouteAttr`: the stored `rta_len`. -/
def NetlinkRouteAttr.len (a : NetlinkRouteAttr) : Nat :=
  a.rta_len

/-- `NetlinkRouteAttr::add_child`: append a fresh child attribute and bump
`rta_len` by the child's declared length (`u16` arithmetic). -/
def NetlinkRouteAttr.add_child (a : NetlinkRouteAttr) (rtaType : Nat)
    (value : List Nat) : NetlinkRouteAttr :=
  let attr := NetlinkRouteAttr.new rtaType value
  .mk ((a.rta_len + attr.len) % 65536) a.rta_type a.value
    (match a.children with
     | none => some [attr]
     | some children => some (children ++ [attr]))

mutual

/-- `NetlinkRouteAttr::serialize`: write `rta_len` and `rta_type` (native
endian), write the value, pad with zeros to a multiple of 4, append the
serialized children, then overwrite the first two bytes with the final
total length as a `u16`. -/
def NetlinkRouteAttr.serialize : NetlinkRouteAttr → List Nat
  | .mk rtaLen rtaType value children =>
    let buf := u16le rtaLen ++ u16le rtaType ++ value
    let buf2 :=
      if buf.length < align_of buf.length RTA_ALIGNTO then
        buf ++ List.replicate (align_of buf.length RTA_ALIGNTO - buf.length) 0
      else
        buf
    let buf3 :=
      match children with
      | none => buf2
      | some cs => buf2 ++ NetlinkRouteAttr.serializeList cs
    u16le buf3.length ++ buf3.drop 2

/-- Serialization of a child list, in order. -/
def NetlinkRouteAttr.serializeList : List NetlinkRouteAttr → List Nat
  | [] => []
  | c :: cs => c.serialize ++ NetlinkRouteAttr.serializeList cs

end

/-- The bytes the children contribute to a serialized attribute. -/
def NetlinkRouteAttr.childBytes (a : NetlinkRouteAttr) : List Nat :=
  match a.children with
  | none => []
  | some cs => NetlinkRouteAttr.serializeList cs

/-! ## Fixed-layout family payloads

`bincode::serialize` with the default options writes integer fields in
declaration order, fixed width, little endian — the flat `#[repr(C)]`
layout of these field types. -/

/-- Four little-endian bytes of an `i32` (two's complement). -/
def i32le (i : Int) : List Nat :=
  u32le (i % 4294967296).toNat

/-- `InfoMessage` (`ifinfomsg`, 16 bytes). -/
structure InfoMessage where
  family : Nat
  pad : Nat
  ifi_type : Nat
  index : Int
  flags : Nat
  change : Nat
  deriving Repr, DecidableEq

def InfoMessage.serialize (m : InfoMessage) : List Nat :=
  [m.family % 256, m.pad % 256] ++ u16le m.ifi_type ++ i32le m.index
    ++ u32le m.flags ++ u32le m.change

/-- `AddressMessage` (`ifaddrmsg`, 8 bytes). -/
structure AddressMessage where
  family : Nat
  prefix_len : Nat
  flags : Nat
  scope : Nat
  index : Int
  deriving Repr, DecidableEq

def AddressMessage.serialize (m : AddressMessage) : List Nat :=
  [m.family % 256, m.prefix_len % 256, m.flags % 256, m.scope % 256]
    ++ i32le m.index

/-- `RouteMessage` (`rtmsg`, 12 bytes). -/
structure RouteMessage where
  family : Nat
  dst_len : Nat
  src_len : Nat
  tos : Nat
  table : Nat
  protocol : Nat
  scope : Nat
  rtm_type : Nat
  flags : Nat
  deriving Repr, DecidableEq

def RouteMessage.serialize (m : RouteMessage) : List Nat :=
  [m.family % 256, m.dst_len % 256, m.src_len % 256, m.tos % 256,
   m.table % 256, m.protocol % 256, m.scope % 256, m.rtm_type % 256]
    ++ u32le m.flags

/-- `RouteMessage::new_rt_msg`. -/
def RouteMessage.new_rt_msg : RouteMessage :=
  ⟨0, 0, 0, 0, RT_TABLE_MAIN, RTPROT_BOOT, RT_SCOPE_UNIVERSE, RTN_UNICAST, 0⟩

/-- `RouteMessage::new_rt_del_msg`. -/
def RouteMessage.new_rt_del_msg : RouteMessage :=
  ⟨0, 0, 0, 0, RT_TABLE_MAIN, 0, RT_SCOPE_NOWHERE, 0, 0⟩

/-- `RouteMessage::new_rt_list_msg`. -/
def RouteMessage.new_rt_list_msg (family : Nat) : RouteMessage :=
  ⟨family, 0, 0, 0, 0, 0, 0, 0, 0⟩

/-! ## Request builder (`src/request.rs`) -/

/-- The payload kinds the library stores behind `Box<dyn
NetlinkRequestData>`. -/
inductive RequestData where
  | attr (a : NetlinkRouteAttr)
  | info (m : InfoMessage)
  | address (m : AddressMessage)
  | route (m : RouteMessage)
  deriving Repr

/-- `NetlinkRequestData::len` of each payload kind: attributes report
their stored `rta_len`; the fixed-layout messages report their struct
sizes (`IF_INFO_MSG_SIZE`, `IF_ADDR_MSG_SIZE`, `ROUTE_MSG_SIZE`). -/
def RequestData.len : RequestData → Nat
  | .attr a => a.len
  | .info _ => 16
  | .address _ => 8
  | .route _ => ROUTE_MSG_SIZE

/-- `NetlinkRequestData::serialize` of each payload kind. -/
def RequestData.serialize : RequestData → List Nat
  | .attr a => a.serialize
  | .info m => m.serialize
  | .address m => m.serialize
  | .route m => m.serialize

/-- `NetlinkMessageHeader::new`: length starts at the 16-byte header
size; flags are `NLM_F_REQUEST | flags` truncated to `u16`. -/
def NetlinkMessageHeader.new (proto : Nat) (flags : Nat) : NetlinkMessageHeader :=
  ⟨NLMSG_HDRLEN, proto, (NLM_F_REQUEST ||| flags) % 65536, 0, 0⟩

/-- `bincode::serialize(&self.header)`: the five fields, little endian. -/
def NetlinkMessageHeader.serialize (h : NetlinkMessageHeader) : List Nat :=
  u32le h.nlmsg_len ++ u16le h.nlmsg_type ++ u16le h.nlmsg_flags
    ++ u32le h.nlmsg_seq ++ u32le h.nlmsg_pid

/-- `NetlinkRequest`: header, optional payload list, optional raw tail. -/
structure NetlinkRequest where
  header : NetlinkMessageHeader
  data : Option (List RequestData)
  raw_data : Option (List Nat)

/-- `NetlinkRequest::new`. -/
def NetlinkRequest.new (proto : Nat) (flags : Nat) : NetlinkRequest :=
  ⟨NetlinkMessageHeader.new proto flags, none, none⟩

/-- `NetlinkRequest::serialize`: header bytes, then each payload, then the
raw tail; finally the first two bytes are overwritten with the total
buffer length as a `u16`. -/
def NetlinkRequest.serialize (req : NetlinkRequest) : List Nat :=
  let buf := req.header.serialize
    ++ (match req.data with
        | none => []
        | some ds => (ds.map RequestData.serialize).flatten)
    ++ (match req.raw_data with
        | none => []
        | some raw => raw)
  u16le buf.length ++ buf.drop 2

/-- `NetlinkRequest::add_data`: bump the cached header length by the
payload's declared length (`u32` arithmetic) and append the payload. -/
def NetlinkRequest.add_data (req : NetlinkRequest) (d : RequestData) :
    NetlinkRequest :=
  { req with
    header := { req.header with
      nlmsg_len := (req.header.nlmsg_len + d.len) % 4294967296 }
    data := match req.data with
      | none => some [d]
      | some ds => some (ds ++ [d]) }

/-- `NetlinkRequest::add_raw_data`: bump the cached header length by the
byte count and extend the raw tail. -/
def NetlinkRequest.add_raw_data (req : NetlinkRequest) (bytes : List Nat) :
    NetlinkRequest :=
  { req with
    header := { req.header with
      nlmsg_len := (req.header.nlmsg_len + bytes.length) % 4294967296 }
    raw_data := match req.raw_data with
      | none => some bytes
      | some raw => some (raw ++ bytes) }

/-- A mutation of a request: the two mutating methods of
`NetlinkRequest`. -/
inductive Mutation where
  | addData (d : RequestData)
  | addRawData (bytes : List Nat)

def NetlinkRequest.applyMutation (req : NetlinkRequest) : Mutation → NetlinkRequest
  | .addData d => req.add_data d
  | .addRawData bytes => req.add_raw_data bytes

def NetlinkRequest.applyMutations (req : NetlinkRequest)
    (muts : List Mutation) : NetlinkRequest :=
  muts.foldl NetlinkRequest.applyMutation req

/-- The sum of the declared (`len()`) payload lengths plus the raw tail
length — what `add_data`/`add_raw_data` actually accumulate into the
header, on top of the 16-byte header size. -/
def NetlinkRequest.declaredSize (req : NetlinkRequest) : Nat :=
  NLMSG_HDRLEN
    + (match req.data with
       | none => 0
       | some ds => (ds.map RequestData.len).sum)
    + (match req.raw_data with
       | none => 0
       | some raw => raw.length)

/-! ## Route entity layer (`src/route.rs`) -/

/-- `std::net::IpAddr`: a v4 or v6 address, carried as its octets. -/
inductive IpAddrM where
  | v4 (octets : List Nat)
  | v6 (octets : List Nat)
  deriving Repr, DecidableEq

/-- The `libc` address family the source selects for each variant. -/
def IpAddrM.family : IpAddrM → Nat
  | .v4 _ => AF_INET
  | .v6 _ => AF_INET6

def IpAddrM.octets : IpAddrM → List Nat
  | .v4 o => o
  | .v6 o => o

/-- `ipnet::IpNet`: a network (address octets plus prefix length). -/
inductive IpNetM where
  | v4 (octets : List Nat) (prefixLen : Nat)
  | v6 (octets : List Nat) (prefixLen : Nat)
  deriving Repr, DecidableEq

def IpNetM.family : IpNetM → Nat
  | .v4 _ _ => AF_INET
  | .v6 _ _ => AF_INET6

def IpNetM.octets : IpNetM → List Nat
  | .v4 o _ => o
  | .v6 o _ => o

def IpNetM.prefixLen : IpNetM → Nat
  | .v4 _ p => p
  | .v6 _ p => p

/-- `RtCmd`. -/
inductive RtCmd where
  | Add
  | Append
  | Replace
  | Del
  | Show
  deriving Repr, DecidableEq

/-- `Route` (the typed route model; `Default` zeroes every field). -/
structure Route where
  oif_index : Int := 0
  iif_index : Int := 0
  family : Nat := 0
  dst : Option IpNetM := none
  src : Option IpAddrM := none
  gw : Option IpAddrM := none
  tos : Nat := 0
  table : Nat := 0
  protocol : Nat := 0
  scope : Nat := 0
  rtm_type : Nat := 0
  flags : Nat := 0
  deriving Repr, DecidableEq

/-- `route_handle`: select `(proto, flags)` from the command, build the
baseline `RouteMessage`, append `RTA_OIF`/`RTA_DST`/`RTA_PREFSRC`/
`RTA_GATEWAY` attributes with the source's family-coherence checks,
apply the caller's `flags` and `scope`, and assemble the request. -/
def route_handle (cmd : RtCmd) (route : Route) :
    Except String NetlinkRequest :=
  let protoFlags : Nat × Nat :=
    match cmd with
    | .Add => (RTM_NEWROUTE, NLM_F_CREATE ||| NLM_F_EXCL ||| NLM_F_ACK)
    | .Append => (RTM_NEWROUTE, NLM_F_CREATE ||| NLM_F_APPEND ||| NLM_F_ACK)
    | .Replace => (RTM_NEWROUTE, NLM_F_CREATE ||| NLM_F_REPLACE ||| NLM_F_ACK)
    | .Del => (RTM_DELROUTE, NLM_F_ACK)
    | .Show => (RTM_GETROUTE, NLM_F_DUMP)
  let proto := protoFlags.1
  let req := NetlinkRequest.new proto protoFlags.2
  let msg :=
    if proto = RTM_DELROUTE then RouteMessage.new_rt_del_msg
    else if cmd = .Show then RouteMessage.new_rt_list_msg route.family
    else RouteMessage.new_rt_msg
  let attrs : List NetlinkRouteAttr :=
    if proto ≠ RTM_GETROUTE ∨ route.oif_index > 0 then
      [NetlinkRouteAttr.new RTA_OIF (i32le route.oif_index)]
    else
      []
  let msgAttrs : Except String (RouteMessage × List NetlinkRouteAttr) :=
    match route.dst with
    | none => Except.ok (msg, attrs)
    | some dst =>
      Except.ok ({ msg with family := dst.family, dst_len := dst.prefixLen },
        attrs ++ [NetlinkRouteAttr.new RTA_DST dst.octets])
  let msgAttrs : Except String (RouteMessage × List NetlinkRouteAttr) :=
    match msgAttrs with
    | Except.error e => Except.error e
    | Except.ok (msg, attrs) =>
      match route.src with
      | none => Except.ok (msg, attrs)
      | some src =>
        if msg.family = 0 then
          Except.ok ({ msg with family := src.family },
            attrs ++ [NetlinkRouteAttr.new RTA_PREFSRC src.octets])
        else if msg.family ≠ src.family then
          Except.error "src and dst address family mismatch"
        else
          Except.ok (msg, attrs ++ [NetlinkRouteAttr.new RTA_PREFSRC src.octets])
  let msgAttrs : Except String (RouteMessage × List NetlinkRouteAttr) :=
    match msgAttrs with
    | Except.error e => Except.error e
    | Except.ok (msg, attrs) =>
      match route.gw with
      | none => Except.ok (msg, attrs)
      | some gw =>
        if msg.family = 0 then
          Except.ok ({ msg with family := gw.family },
            attrs ++ [NetlinkRouteAttr.new RTA_GATEWAY gw.octets])
        else if msg.family ≠ gw.family then
          Except.error "gw, src and dst address family mismatch"
        else
          Except.ok (msg, attrs ++ [NetlinkRouteAttr.new RTA_GATEWAY gw.octets])
  match msgAttrs with
  | Except.error e => Except.error e
  | Except.ok (msg, attrs) =>
    let msg := { msg with flags := route.flags, scope := route.scope }
    let req := req.add_data (RequestData.route msg)
    Except.ok (attrs.foldl (fun r a => r.add_data (RequestData.attr a)) req)

/-- The address families of the route's present `dst`, `src`, `gw`
fields, in that order. -/
def Route.presentFamilies (route : Route) : List Nat :=
  (match route.dst with | none => [] | some d => [d.family])
    ++ (match route.src with | none => [] | some s => [s.family])
    ++ (match route.gw with | none => [] | some g => [g.family])

/-- Do all present `dst`/`src`/`gw` fields carry the same family? -/
def Route.familiesAgree (route : Route) : Bool :=
  match route.presentFamilies with
  | [] => true
  | f :: fs => fs.all (· = f)

/-- The `family` byte of the first payload of a request, when that
payload is a `RouteMessage`. -/
def NetlinkRequest.firstRouteMsg (req : NetlinkRequest) : Option RouteMessage :=
  match req.data with
  | some (RequestData.route m :: _) => some m
  | _ => none

/-- Did request construction succeed? -/
def exceptIsOk : Except String NetlinkRequest → Bool
  | Except.ok _ => true
  | Except.error _ => false

/-- The `RouteMessage` payload of a successfully built route request. -/
def routeHandleFirstMsg (cmd : RtCmd) (route : Route) : Option RouteMessage :=
  match route_handle cmd route with
  | Except.ok req => req.firstRouteMsg
  | Except.error _ => none

/-- The payload family of a successfully built route request. -/
def routeHandleFirstFamily (cmd : RtCmd) (route : Route) : Option Nat :=
  (routeHandleFirstMsg cmd route).map RouteMessage.family

/-! ## Transaction driver (`SocketHandle::execute`, `src/handle.rs`) -/

/-- A framed message as produced by `socket.recv()`. -/
structure NLMsg where
  header : NetlinkMessageHeader
  data : List Nat
  deriving Repr, DecidableEq

/-- One received datagram: the sender's `nl_pid` and the parsed batch. -/
structure Datagram where
  fromPid : Nat
  msgs : List NLMsg
  deriving Repr, DecidableEq

/-- The observable outcome of the `execute` receive loop.  `pending`
means the modelled datagram sequence ran out before a terminator —
`recv()` would block; `fault` models the panic of the unchecked
`m.data[0..4]` slice on a terminator payload shorter than 4 bytes. -/
inductive ExecOutcome where
  | ok (payloads : List (List Nat))
  | nlErr (errno : Int) (context : List Nat)
  | wrongSender (senderPid : Nat)
  | pending (payloads : List (List Nat))
  | fault
  deriving Repr, DecidableEq

/-- The inner `for m in msgs` loop of `execute`: skip messages failing the
`seq` or `pid` comparison, treat `NLMSG_DONE`/`NLMSG_ERROR` as a
terminator carrying a 4-byte errno, skip non-matching types during a
typed dump, collect every other payload, and stop at a message without
`NLM_F_MULTI`.  `Sum.inl` returns the accumulated payloads to the outer
loop; `Sum.inr` ends the transaction. -/
def processMsgs (reqSeq pid resType : Nat) :
    List NLMsg → List (List Nat) → List (List Nat) ⊕ ExecOutcome
  | [], res => Sum.inl res
  | m :: rest, res =>
    if m.header.nlmsg_seq ≠ reqSeq then
      processMsgs reqSeq pid resType rest res
    else if m.header.nlmsg_pid ≠ pid then
      processMsgs reqSeq pid resType rest res
    else if m.header.nlmsg_type = NLMSG_DONE ∨ m.header.nlmsg_type = NLMSG_ERROR then
      if m.data.length < 4 then
        Sum.inr ExecOutcome.fault
      else if toI32 (readU32 m.data) = 0 then
        Sum.inr (ExecOutcome.ok res)
      else
        Sum.inr (ExecOutcome.nlErr (toI32 (readU32 m.data)) (m.data.drop 4))
    else if resType ≠ 0 ∧ m.header.nlmsg_type ≠ resType then
      processMsgs reqSeq pid resType rest res
    else if m.header.nlmsg_flags &&& NLM_F_MULTI = 0 then
      Sum.inr (ExecOutcome.ok (res ++ [m.data]))
    else
      processMsgs reqSeq pid resType rest (res ++ [m.data])

/-- The outer `'done: loop` of `execute` over a sequence of received
datagrams: reject non-kernel senders, then run the inner loop. -/
def executeLoop (reqSeq pid resType : Nat) :
    List Datagram → List (List Nat) → ExecOutcome
  | [], res => ExecOutcome.pending res
  | dg :: rest, res =>
    if dg.fromPid ≠ PID_KERNEL then
      ExecOutcome.wrongSender dg.fromPid
    else
      match processMsgs reqSeq pid resType dg.msgs res with
      | Sum.inl res' => executeLoop reqSeq pid resType rest res'
      | Sum.inr out => out

/-- Does a framed message pass the driver's `(seq, pid)` filter? -/
def NLMsg.matches (m : NLMsg) (reqSeq pid : Nat) : Bool :=
  m.header.nlmsg_seq = reqSeq ∧ m.header.nlmsg_pid = pid

/-! ## `link_get` reply dispatch (`SocketHandle::link_get`) -/

/-- The common link attributes `link_deserialize` populates from the
`InfoMessage` header of a reply. -/
structure LinkModel where
  index : Int
  flags : Nat
  deriving Repr, DecidableEq

/-- Modelled from the spec: `link::link_deserialize` lives in
`src/link.rs`, which is absent from the sources; per the spec it reads
the fixed 16-byte `InfoMessage` (family, pad, type, index, flags,
change) and then walks the attributes populating `LinkAttrs`.  Only the
header fields relevant here are modelled: `index` at offset 4 and
`flags` at offset 8. -/
def linkDeserialize (buf : List Nat) : Except String LinkModel :=
  Except.ok ⟨toI32 (readU32 (buf.drop 4)), readU32 (buf.drop 8)⟩

/-- The reply-count dispatch of `SocketHandle::link_get` over the
payloads collected by `execute`. -/
def linkGetDispatch (msgs : List (List Nat)) : Except String LinkModel :=
  match msgs with
  | [] => Except.error "no link found"
  | [m] => linkDeserialize m
  | _ => Except.error "multiple links found"

section Theorems

theorem le_align4 (n : Nat) : n ≤ align_of n 4 := by
  unfold align_of
  omega

theorem align4_le (n : Nat) : align_of n 4 ≤ n + 3 := by
  unfold align_of
  omega

theorem netlinkMessageFromGo_isSome (fuel : Nat) :
    ∀ buf : List Nat, buf.length ≤ fuel →
      (netlinkMessageFromGo fuel buf).isSome = nlBufWellFormedGo fuel buf := by
  induction fuel with
  | zero =>
    intro buf h
    simp [netlinkMessageFromGo, nlBufWellFormedGo]
  | succ n ih =>
    intro buf h
    simp only [netlinkMessageFromGo, nlBufWellFormedGo]
    by_cases h1 : buf.length < NLMSG_HDRLEN
    · simp [h1]
    · by_cases h2 : (parseHeader buf).nlmsg_len < NLMSG_HDRLEN
      · simp [h1, h2]
      · by_cases h3 : buf.length < (parseHeader buf).nlmsg_len
        · simp [h1, h2, h3]
        · by_cases h4 : buf.length <
              align_of (parseHeader buf).nlmsg_len NLMSG_ALIGNTO
          · simp [h1, h2, h3, h4]
          · have hal := le_align4 (parseHeader buf).nlmsg_len
            have hdrop :
                (buf.drop
                  (align_of (parseHeader buf).nlmsg_len NLMSG_ALIGNTO)).length
                  ≤ n := by
              simp only [List.length_drop, NLMSG_ALIGNTO] at *
              simp only [NLMSG_HDRLEN] at h1 h2
              omega
            rw [← ih _ hdrop]
            simp only [h1, h2, h3, h4, if_false, if_neg]
            cases hgo : netlinkMessageFromGo n
                (buf.drop (align_of (parseHeader buf).nlmsg_len NLMSG_ALIGNTO)) with
            | none => simp [hgo]
            | some rest => simp [hgo]

/-- C2 (counterexample): a 16-byte buffer of zeros declares `nlmsg_len =
0 < 16`; the claim says parsing terminates and returns the messages read
so far (here `some []`), but `NetlinkMessage::from` panics slicing
`buf[16..0]` (modelled as `none`). -/
theorem netlinkMessageFrom_panics_on_short_len :
    netlinkMessageFrom (List.replicate 16 0) = none := by
  decide

/-- C2 (amended): `NetlinkMessage::from` panics, rather than terminating,
when it reaches a message whose declared length is below the 16-byte
header length or whose 4-aligned extent exceeds the remaining bytes, and
the messages read before that point are lost; parsing succeeds exactly on
buffers where every message reached is within bounds
(`nlBufWellFormed`). -/
theorem netlinkMessageFrom_total_iff_wellFormed (buf : List Nat) :
    (netlinkMessageFrom buf).isSome = nlBufWellFormed buf :=
  netlinkMessageFromGo_isSome buf.length buf le_rfl

theorem rtAttrFromGo_isSome (fuel : Nat) :
    ∀ buf : List Nat, buf.length ≤ fuel →
      (rtAttrFromGo fuel buf).isSome = rtAttrBufWellFormedGo fuel buf := by
  induction fuel with
  | zero =>
    intro buf h
    simp [rtAttrFromGo, rtAttrBufWellFormedGo]
  | succ n ih =>
    intro buf h
    simp only [rtAttrFromGo, rtAttrBufWellFormedGo]
    by_cases h1 : buf.length < RT_ATTR_SIZE
    · simp [h1]
    · by_cases h2 : (parseRtAttr buf).rta_len < RT_ATTR_SIZE
      · simp [h1, h2]
      · by_cases h3 : buf.length < (parseRtAttr buf).rta_len
        · simp [h1, h2, h3]
        · by_cases h4 : buf.length <
              align_of (parseRtAttr buf).rta_len RTA_ALIGNTO
          · simp [h1, h2, h3, h4]
          · have hal := le_align4 (parseRtAttr buf).rta_len
            have hdrop :
                (buf.drop
                  (align_of (parseRtAttr buf).rta_len RTA_ALIGNTO)).length
                  ≤ n := by
              simp only [List.length_drop, RTA_ALIGNTO] at *
              simp only [RT_ATTR_SIZE] at h1 h2
              omega
            rw [← ih _ hdrop]
            simp only [h1, h2, h3, h4, if_false, if_neg]
            cases hgo : rtAttrFromGo n
                (buf.drop (align_of (parseRtAttr buf).rta_len RTA_ALIGNTO)) with
            | none => simp [hgo]
            | some r => cases r <;> simp [hgo]

theorem rtAttrFromGo_no_error (fuel : Nat) :
    ∀ buf : List Nat, ∀ e : String,
      rtAttrFromGo fuel buf ≠ some (Except.error e) := by
  induction fuel with
  | zero =>
    intro buf e
    simp [rtAttrFromGo]
  | succ n ih =>
    intro buf e
    simp only [rtAttrFromGo]
    by_cases h1 : buf.length < RT_ATTR_SIZE
    · simp [h1]
    · by_cases h2 : (parseRtAttr buf).rta_len < RT_ATTR_SIZE
      · simp [h1, h2]
      · by_cases h3 : buf.length < (parseRtAttr buf).rta_len
        · simp [h1, h2, h3]
        · by_cases h4 : buf.length <
              align_of (parseRtAttr buf).rta_len RTA_ALIGNTO
          · simp [h1, h2, h3, h4]
          · simp only [h1, h2, h3, h4, if_false, if_neg]
            cases hgo : rtAttrFromGo n
                (buf.drop (align_of (parseRtAttr buf).rta_len RTA_ALIGNTO)) with
            | none => simp [hgo]
            | some r =>
              cases r with
              | error e' => exact absurd hgo (ih _ e')
              | ok rest => simp [hgo]

theorem rtAttrMapGo_isSome (fuel : Nat) :
    ∀ (buf : List Nat) (attrs : List (Nat × List Nat)), buf.length ≤ fuel →
      (rtAttrMapGo fuel buf attrs).isSome = rtAttrBufWellFormedGo fuel buf := by
  induction fuel with
  | zero =>
    intro buf attrs h
    simp [rtAttrMapGo, rtAttrBufWellFormedGo]
  | succ n ih =>
    intro buf attrs h
    simp only [rtAttrMapGo, rtAttrBufWellFormedGo]
    by_cases h1 : buf.length < RT_ATTR_SIZE
    · simp [h1]
    · by_cases h2 : (parseRtAttr buf).rta_len < RT_ATTR_SIZE
      · simp [h1, h2]
      · by_cases h3 : buf.length < (parseRtAttr buf).rta_len
        · simp [h1, h2, h3]
        · by_cases h4 : buf.length <
              align_of (parseRtAttr buf).rta_len RTA_ALIGNTO
          · simp [h1, h2, h3, h4]
          · have hal := le_align4 (parseRtAttr buf).rta_len
            have hdrop :
                (buf.drop
                  (align_of (parseRtAttr buf).rta_len RTA_ALIGNTO)).length
                  ≤ n := by
              simp only [List.length_drop, RTA_ALIGNTO] at *
              simp only [RT_ATTR_SIZE] at h1 h2
              omega
            simp only [h1, h2, h3, h4, if_false, if_neg]
            exact ih _ _ hdrop

theorem rtAttrMapGo_no_error (fuel : Nat) :
    ∀ (buf : List Nat) (attrs : List (Nat × List Nat)) (e : String),
      rtAttrMapGo fuel buf attrs ≠ some (Except.error e) := by
  induction fuel with
  | zero =>
    intro buf attrs e
    simp [rtAttrMapGo]
  | succ n ih =>
    intro buf attrs e
    simp only [rtAttrMapGo]
    by_cases h1 : buf.length < RT_ATTR_SIZE
    · simp [h1]
    · by_cases h2 : (parseRtAttr buf).rta_len < RT_ATTR_SIZE
      · simp [h1, h2]
      · by_cases h3 : buf.length < (parseRtAttr buf).rta_len
        · simp [h1, h2, h3]
        · by_cases h4 : buf.length <
              align_of (parseRtAttr buf).rta_len RTA_ALIGNTO
          · simp [h1, h2, h3, h4]
          · simp only [h1, h2, h3, h4, if_false, if_neg]
            exact ih _ _ e

/-- C3 (counterexample): the 4-byte buffer `[8,0,0,0]` declares `rta_len
= 8`, exceeding the input; the claim says `NetlinkRouteAttr::from` and
`::map` surface an error, but both panic slicing `buf[4..8]` (modelled as
`none`, not `some (Except.error _)`). -/
theorem rtAttr_decode_panics_on_overlong_attr :
    rtAttrFrom [8, 0, 0, 0] = none ∧ rtAttrMap [8, 0, 0, 0] = none := by
  constructor <;> rfl

/-- C3 (amended): `NetlinkRouteAttr::from` and `::map` reject an
attribute whose declared `rta_len` exceeds the remaining input by
panicking — which does discard partial results — and never by surfacing
an `Err`; decoding succeeds exactly on buffers where every attribute
reached is within bounds (`rtAttrBufWellFormed`). -/
theorem rtAttr_decode_panics_never_errors (buf : List Nat) :
    ((rtAttrFrom buf).isSome = rtAttrBufWellFormed buf
      ∧ ∀ e, rtAttrFrom buf ≠ some (Except.error e))
    ∧ ((rtAttrMap buf).isSome = rtAttrBufWellFormed buf
      ∧ ∀ e, rtAttrMap buf ≠ some (Except.error e)) :=
  ⟨⟨rtAttrFromGo_isSome buf.length buf le_rfl,
    fun e => rtAttrFromGo_no_error buf.length buf e⟩,
   ⟨rtAttrMapGo_isSome buf.length buf [] le_rfl,
    fun e => rtAttrMapGo_no_error buf.length buf [] e⟩⟩

theorem align4_mod (n : Nat) : align_of n 4 % 4 = 0 := by
  unfold align_of
  omega

theorem readU16_u16le_append (n : Nat) (rest : List Nat) :
    readU16 (u16le n ++ rest) = n % 65536 := by
  simp [readU16, u16le]
  omega

theorem serialize_mk_length (l t : Nat) (v : List Nat)
    (c : Option (List NetlinkRouteAttr)) :
    (NetlinkRouteAttr.serialize (.mk l t v c)).length
      = align_of (4 + v.length) 4
        + (NetlinkRouteAttr.mk l t v c).childBytes.length := by
  have hle := le_align4 (4 + v.length)
  cases c <;>
    simp [NetlinkRouteAttr.serialize, NetlinkRouteAttr.childBytes,
      NetlinkRouteAttr.children, u16le, RTA_ALIGNTO, align_of] <;>
    split_ifs <;>
    simp_all <;>
    omega

/-- The serialized length in accessor form. -/
theorem serialize_length (a : NetlinkRouteAttr) :
    a.serialize.length
      = align_of (4 + a.value.length) 4 + a.childBytes.length := by
  obtain ⟨l, t, v, c⟩ := a
  exact serialize_mk_length l t v c

mutual

theorem serialize_length_mod4 :
    ∀ a : NetlinkRouteAttr, a.serialize.length % 4 = 0
  | .mk l t v none => by
    have h := align4_mod (4 + v.length)
    rw [serialize_mk_length]
    simp [NetlinkRouteAttr.childBytes, NetlinkRouteAttr.children]
    omega
  | .mk l t v (some cs) => by
    have h := align4_mod (4 + v.length)
    have h2 := serializeList_length_mod4 cs
    rw [serialize_mk_length]
    simp [NetlinkRouteAttr.childBytes, NetlinkRouteAttr.children]
    omega

theorem serializeList_length_mod4 :
    ∀ cs : List NetlinkRouteAttr,
      (NetlinkRouteAttr.serializeList cs).length % 4 = 0
  | [] => by simp [NetlinkRouteAttr.serializeList]
  | c :: cs => by
    have h1 := serialize_length_mod4 c
    have h2 := serializeList_length_mod4 cs
    simp [NetlinkRouteAttr.serializeList]
    omega

end

/-- The layout of a serialized attribute: rewritten length, type, value,
zero padding to a multiple of 4, then the children's bytes. -/
theorem serialize_decomp (a : NetlinkRouteAttr) :
    a.serialize
      = u16le (align_of (4 + a.value.length) 4 + a.childBytes.length)
        ++ u16le a.rta_type ++ a.value
        ++ List.replicate
            (align_of (4 + a.value.length) 4 - (4 + a.value.length)) 0
        ++ a.childBytes := by
  obtain ⟨l, t, v, c⟩ := a
  have hle := le_align4 (4 + v.length)
  cases c <;>
    simp [NetlinkRouteAttr.serialize, NetlinkRouteAttr.childBytes,
      NetlinkRouteAttr.children, NetlinkRouteAttr.rta_type,
      NetlinkRouteAttr.value, u16le, RTA_ALIGNTO, align_of] <;>
    split_ifs <;>
    simp_all <;>
    omega

/-- C4 (counterexample): the attribute `new(3, [0x6c])` has no children
and logical length `rta_len = 5`, yet `serialize` writes `8` — the padded
total — into the wire length field: the rewrite of the first two bytes is
unconditional, not reserved for attributes with children. -/
theorem rtAttr_serialize_len_field_counterexample :
    (NetlinkRouteAttr.new 3 [108]).children = none
    ∧ (NetlinkRouteAttr.new 3 [108]).rta_len = 5
    ∧ readU16 (NetlinkRouteAttr.new 3 [108]).serialize = 8 :=
  ⟨rfl, rfl, rfl⟩

/-- C4 (amended): every serialized attribute occupies a multiple of 4
bytes, laid out as length field, type, value, zero padding to a multiple
of 4, then children; but the `rta_len` field written on the wire is
always the final total buffer length (padding and children included,
truncated to `u16`) — for every attribute, children or not, never the
pre-padding logical length. -/
theorem rtAttr_serialize_layout (a : NetlinkRouteAttr) :
    a.serialize.length % 4 = 0
    ∧ readU16 a.serialize = a.serialize.length % 65536
    ∧ a.serialize
        = u16le a.serialize.length ++ u16le a.rta_type ++ a.value
          ++ List.replicate
              (align_of (4 + a.value.length) 4 - (4 + a.value.length)) 0
          ++ a.childBytes := by
  refine ⟨serialize_length_mod4 a, ?_, ?_⟩
  · have hd := serialize_decomp a
    have hl := serialize_length a
    calc readU16 a.serialize
        = readU16 (u16le (align_of (4 + a.value.length) 4
            + a.childBytes.length)
          ++ (u16le a.rta_type ++ a.value
            ++ List.replicate
                (align_of (4 + a.value.length) 4 - (4 + a.value.length)) 0
            ++ a.childBytes)) := by
          rw [← List.append_assoc, ← List.append_assoc, ← List.append_assoc,
            ← hd]
      _ = (align_of (4 + a.value.length) 4 + a.childBytes.length) % 65536 :=
          readU16_u16le_append _ _
      _ = a.serialize.length % 65536 := by rw [hl]
  · rw [serialize_length]
    exact serialize_decomp a

/-- C5 (counterexample): the request of the repository's own unit test —
an `InfoMessage` plus the attribute `IFLA_IFNAME = "lo"` — has header
length 38 after its mutations but serializes to 40 bytes: `add_data`
accumulates declared (`len()`) lengths, and an attribute's declared
length omits its padding. -/
theorem request_len_mismatch_counterexample :
    (((NetlinkRequest.new 0 0).add_data
        (RequestData.info ⟨0, 0, 772, 1, 73, 0⟩)).add_data
        (RequestData.attr (NetlinkRouteAttr.new 3 [108, 111]))).header.nlmsg_len
      = 38
    ∧ (((NetlinkRequest.new 0 0).add_data
        (RequestData.info ⟨0, 0, 772, 1, 73, 0⟩)).add_data
        (RequestData.attr
          (NetlinkRouteAttr.new 3 [108, 111]))).serialize.length
      = 40 := by
  constructor <;> rfl

theorem declaredSize_add_data (req : NetlinkRequest) (d : RequestData) :
    (req.add_data d).declaredSize = req.declaredSize + d.len := by
  cases hd : req.data <;>
    simp [NetlinkRequest.add_data, NetlinkRequest.declaredSize, hd] <;>
    omega

theorem declaredSize_add_raw_data (req : NetlinkRequest) (bytes : List Nat) :
    (req.add_raw_data bytes).declaredSize
      = req.declaredSize + bytes.length := by
  cases hr : req.raw_data <;>
    simp [NetlinkRequest.add_raw_data, NetlinkRequest.declaredSize, hr] <;>
    omega

theorem nlmsg_len_invariant_step (req : NetlinkRequest) (m : Mutation)
    (h : req.header.nlmsg_len = req.declaredSize % 4294967296) :
    (req.applyMutation m).header.nlmsg_len
      = (req.applyMutation m).declaredSize % 4294967296 := by
  cases m with
  | addData d =>
    simp only [NetlinkRequest.applyMutation, declaredSize_add_data]
    simp [NetlinkRequest.add_data, h, Nat.add_mod_left]
  | addRawData bytes =>
    simp only [NetlinkRequest.applyMutation, declaredSize_add_raw_data]
    simp [NetlinkRequest.add_raw_data, h, Nat.add_mod_left]

/-- C5 (amended): after every sequence of `add_data`/`add_raw_data`
mutations, the header's `nlmsg_len` equals the 16-byte header size plus
the sum of the payloads' *declared* lengths (`len()`) plus the raw tail
length, modulo `2^32` — not the size `serialize` would produce, from
which it differs exactly when some payload's declared length differs
from its serialized length (an attribute whose value is not 4-byte
aligned serializes with padding its declared length omits). -/
theorem request_nlmsg_len_tracks_declaredSize (proto flags : Nat)
    (muts : List Mutation) :
    ((NetlinkRequest.new proto flags).applyMutations muts).header.nlmsg_len
      = ((NetlinkRequest.new proto flags).applyMutations muts).declaredSize
          % 4294967296 := by
  suffices h : ∀ req : NetlinkRequest,
      req.header.nlmsg_len = req.declaredSize % 4294967296 →
      (req.applyMutations muts).header.nlmsg_len
        = (req.applyMutations muts).declaredSize % 4294967296 by
    exact h _ (by rfl)
  induction muts with
  | nil => intro req h; exact h
  | cons m rest ih =>
    intro req h
    exact ih _ (nlmsg_len_invariant_step req m h)

theorem header_serialize_length (h : NetlinkMessageHeader) :
    h.serialize.length = 16 := by
  simp [NetlinkMessageHeader.serialize, u32le, u16le]

theorem request_serialize_readU16 (req : NetlinkRequest) :
    readU16 req.serialize = req.serialize.length % 65536 := by
  have h16 := header_serialize_length req.header
  simp only [NetlinkRequest.serialize]
  rw [readU16_u16le_append]
  simp [u16le, List.length_append, h16]
  omega

/-- C6 (confirmed): the first two bytes of every serialized request,
read as a native-endian `u16`, are the exact byte count of the buffer —
`serialize` overwrites them with the final length, whatever running sum
the header holds.  (The byte-count bound is the `u16` width the field
is truncated to.) -/
theorem request_first_two_bytes_are_length (req : NetlinkRequest)
    (h : req.serialize.length < 65536) :
    readU16 req.serialize = req.serialize.length := by
  rw [request_serialize_readU16, Nat.mod_eq_of_lt h]

/-- C6 witness: a concrete request. -/
theorem request_first_two_bytes_are_length_witness :
    (NetlinkRequest.new 0 0).serialize.length < 65536
    ∧ readU16 (NetlinkRequest.new 0 0).serialize
        = (NetlinkRequest.new 0 0).serialize.length :=
  ⟨by decide, request_first_two_bytes_are_length _ (by decide)⟩

/-- C7 (counterexample): for `Show`, the payload family starts from
`route.family` rather than 0, and a lone `gw` must agree with it: the
route `{family: AF_INET, gw: v6}` has at most one of `dst`/`src`/`gw`
present — so no two present fields disagree — yet `route_handle` fails
before sending. -/
theorem route_handle_lone_gw_rejected :
    Route.familiesAgree
        { family := AF_INET, gw := some (IpAddrM.v6 (List.replicate 16 0)) }
      = true
    ∧ route_handle RtCmd.Show
        { family := AF_INET, gw := some (IpAddrM.v6 (List.replicate 16 0)) }
      = Except.error "gw, src and dst address family mismatch" := by
  constructor <;> rfl

/-- C7 (amended): whenever the payload's starting family is zero — any
command except `Show`, whose baseline payload copies `route.family` —
construction succeeds exactly when all present `dst`/`src`/`gw` families
agree (failing otherwise before anything is sent), and on success the
payload family is the first present field's family (zero when none is
present). -/
theorem route_handle_family_coherence (cmd : RtCmd) (route : Route)
    (hshow : cmd = RtCmd.Show → route.family = 0) :
    exceptIsOk (route_handle cmd route) = route.familiesAgree
    ∧ (route.familiesAgree = true →
        routeHandleFirstFamily cmd route
          = some (route.presentFamilies.headD 0)) := by
  obtain ⟨oif, iif, fam, dst, src, gw, tos, tbl, prot, scope, rtm, fl⟩ := route
  by_cases hoif : oif > 0 <;>
  rcases dst with _ | (⟨dO, dP⟩ | ⟨dO, dP⟩) <;>
  rcases src with _ | (sO | sO) <;>
  rcases gw with _ | (gO | gO) <;>
  cases cmd <;>
  first
    | (have h0 : fam = 0 := hshow rfl
       subst h0
       simp [route_handle, Route.familiesAgree, Route.presentFamilies,
         routeHandleFirstFamily, routeHandleFirstMsg,
         NetlinkRequest.firstRouteMsg, exceptIsOk, NetlinkRequest.new,
         NetlinkRequest.add_data, RouteMessage.new_rt_msg,
         RouteMessage.new_rt_del_msg, RouteMessage.new_rt_list_msg,
         IpAddrM.family, IpNetM.family, AF_INET, AF_INET6,
         RTM_NEWROUTE, RTM_DELROUTE, RTM_GETROUTE, hoif])
    | simp [route_handle, Route.familiesAgree, Route.presentFamilies,
        routeHandleFirstFamily, routeHandleFirstMsg,
        NetlinkRequest.firstRouteMsg, exceptIsOk, NetlinkRequest.new,
        NetlinkRequest.add_data, RouteMessage.new_rt_msg,
        RouteMessage.new_rt_del_msg, RouteMessage.new_rt_list_msg,
        IpAddrM.family, IpNetM.family, AF_INET, AF_INET6,
        RTM_NEWROUTE, RTM_DELROUTE, RTM_GETROUTE, hoif]

/-- C7 witness: an `Add` with agreeing v4 `dst` and `src`. -/
theorem route_handle_family_coherence_witness :
    exceptIsOk (route_handle RtCmd.Add
        { dst := some (IpNetM.v4 [192, 168, 0, 0] 24),
          src := some (IpAddrM.v4 [127, 0, 0, 2]) })
      = Route.familiesAgree
          { dst := some (IpNetM.v4 [192, 168, 0, 0] 24),
            src := some (IpAddrM.v4 [127, 0, 0, 2]) }
    ∧ (Route.familiesAgree
          { dst := some (IpNetM.v4 [192, 168, 0, 0] 24),
            src := some (IpAddrM.v4 [127, 0, 0, 2]) } = true →
        routeHandleFirstFamily RtCmd.Add
          { dst := some (IpNetM.v4 [192, 168, 0, 0] 24),
            src := some (IpAddrM.v4 [127, 0, 0, 2]) }
          = some ((Route.presentFamilies
              { dst := some (IpNetM.v4 [192, 168, 0, 0] 24),
                src := some (IpAddrM.v4 [127, 0, 0, 2]) }).headD 0)) :=
  route_handle_family_coherence RtCmd.Add
    { dst := some (IpNetM.v4 [192, 168, 0, 0] 24),
      src := some (IpAddrM.v4 [127, 0, 0, 2]) }
    (fun h => nomatch h)

/-- C8 (counterexample): for a default `Route` deleted with `Del`, the
built payload's scope is `0` (`RT_SCOPE_UNIVERSE`), not
`RT_SCOPE_NOWHERE`: step 5 writes the caller's `scope` over the
`new_rt_del_msg` baseline. -/
theorem route_handle_del_scope_counterexample :
    (routeHandleFirstMsg RtCmd.Del {}).map RouteMessage.scope
        = some RT_SCOPE_UNIVERSE
    ∧ ({} : Route).scope = 0
    ∧ RT_SCOPE_UNIVERSE ≠ RT_SCOPE_NOWHERE :=
  ⟨rfl, rfl, by decide⟩

/-- C8 (amended): every `Del` request that is built carries `table =
RT_TABLE_MAIN` and `scope = route.scope` — the `RT_SCOPE_NOWHERE`
baseline of `new_rt_del_msg` is overwritten by the caller's scope, so
a `Route` left at its default gets `RT_SCOPE_UNIVERSE` (0). -/
theorem route_handle_del_payload (route : Route) :
    (routeHandleFirstMsg RtCmd.Del route).map (fun m => (m.table, m.scope))
      = if route.familiesAgree then some (RT_TABLE_MAIN, route.scope)
        else none := by
  obtain ⟨oif, iif, fam, dst, src, gw, tos, tbl, prot, scope, rtm, fl⟩ := route
  rcases dst with _ | (⟨dO, dP⟩ | ⟨dO, dP⟩) <;>
  rcases src with _ | (sO | sO) <;>
  rcases gw with _ | (gO | gO) <;>
  simp [route_handle, Route.familiesAgree, Route.presentFamilies,
    routeHandleFirstMsg, NetlinkRequest.firstRouteMsg, NetlinkRequest.new,
    NetlinkRequest.add_data, RouteMessage.new_rt_del_msg,
    IpAddrM.family, IpNetM.family, AF_INET, AF_INET6,
    RTM_NEWROUTE, RTM_DELROUTE, RTM_GETROUTE, RT_TABLE_MAIN]

theorem processMsgs_inl_provenance (reqSeq pid resType : Nat)
    (msgs : List NLMsg) :
    ∀ (acc acc' : List (List Nat)),
      processMsgs reqSeq pid resType msgs acc = Sum.inl acc' →
      ∀ x ∈ acc', x ∈ acc ∨ ∃ m ∈ msgs, m.data = x
        ∧ m.header.nlmsg_seq = reqSeq ∧ m.header.nlmsg_pid = pid := by
  induction msgs with
  | nil =>
    intro acc acc' h x hx
    simp only [processMsgs, Sum.inl.injEq] at h
    subst h
    exact Or.inl hx
  | cons m rest ih =>
    intro acc acc' h x hx
    simp only [processMsgs] at h
    split_ifs at h with h1 h2 h3 h6 h7
    · rcases ih acc acc' h x hx with hl | ⟨m', hm', hd⟩
      · exact Or.inl hl
      · exact Or.inr ⟨m', List.mem_cons_of_mem m hm', hd⟩
    · rcases ih acc acc' h x hx with hl | ⟨m', hm', hd⟩
      · exact Or.inl hl
      · exact Or.inr ⟨m', List.mem_cons_of_mem m hm', hd⟩
    · rcases ih acc acc' h x hx with hl | ⟨m', hm', hd⟩
      · exact Or.inl hl
      · exact Or.inr ⟨m', List.mem_cons_of_mem m hm', hd⟩
    · rcases ih _ acc' h x hx with hl | ⟨m', hm', hd⟩
      · rcases List.mem_append.1 hl with hl' | hl'
        · exact Or.inl hl'
        · refine Or.inr ⟨m, List.mem_cons_self m rest, ?_⟩
          simp only [List.mem_singleton] at hl'
          exact ⟨hl'.symm, by omega, by omega⟩
      · exact Or.inr ⟨m', List.mem_cons_of_mem m hm', hd⟩

theorem processMsgs_ok_provenance (reqSeq pid resType : Nat)
    (msgs : List NLMsg) :
    ∀ (acc res : List (List Nat)),
      processMsgs reqSeq pid resType msgs acc
          = Sum.inr (ExecOutcome.ok res) →
      ∀ x ∈ res, x ∈ acc ∨ ∃ m ∈ msgs, m.data = x
        ∧ m.header.nlmsg_seq = reqSeq ∧ m.header.nlmsg_pid = pid := by
  induction msgs with
  | nil =>
    intro acc res h
    simp only [processMsgs] at h
    simp at h
  | cons m rest ih =>
    intro acc res h x hx
    simp only [processMsgs] at h
    split_ifs at h with h1 h2 h3 h4 h5 h6 h7
    · rcases ih acc res h x hx with hl | ⟨m', hm', hd⟩
      · exact Or.inl hl
      · exact Or.inr ⟨m', List.mem_cons_of_mem m hm', hd⟩
    · rcases ih acc res h x hx with hl | ⟨m', hm', hd⟩
      · exact Or.inl hl
      · exact Or.inr ⟨m', List.mem_cons_of_mem m hm', hd⟩
    · exact absurd h (by simp)
    · simp only [Sum.inr.injEq, ExecOutcome.ok.injEq] at h
      subst h
      exact Or.inl hx
    · exact absurd h (by simp)
    · rcases ih acc res h x hx with hl | ⟨m', hm', hd⟩
      · exact Or.inl hl
      · exact Or.inr ⟨m', List.mem_cons_of_mem m hm', hd⟩
    · simp only [Sum.inr.injEq, ExecOutcome.ok.injEq] at h
      subst h
      rcases List.mem_append.1 hx with hl' | hl'
      · exact Or.inl hl'
      · refine Or.inr ⟨m, List.mem_cons_self m rest, ?_⟩
        simp only [List.mem_singleton] at hl'
        exact ⟨hl'.symm, by omega, by omega⟩
    · rcases ih _ res h x hx with hl | ⟨m', hm', hd⟩
      · rcases List.mem_append.1 hl with hl' | hl'
        · exact Or.inl hl'
        · refine Or.inr ⟨m, List.mem_cons_self m rest, ?_⟩
          simp only [List.mem_singleton] at hl'
          exact ⟨hl'.symm, by omega, by omega⟩
      · exact Or.inr ⟨m', List.mem_cons_of_mem m hm', hd⟩

theorem executeLoop_ok_provenance (reqSeq pid resType : Nat)
    (dgs : List Datagram) :
    ∀ (acc res : List (List Nat)),
      executeLoop reqSeq pid resType dgs acc = ExecOutcome.ok res →
      ∀ x ∈ res, x ∈ acc ∨ ∃ dg ∈ dgs, ∃ m ∈ dg.msgs, m.data = x
        ∧ m.header.nlmsg_seq = reqSeq ∧ m.header.nlmsg_pid = pid := by
  induction dgs with
  | nil =>
    intro acc res h
    simp only [executeLoop] at h
    simp at h
  | cons dg rest ih =>
    intro acc res h x hx
    simp only [executeLoop] at h
    split_ifs at h with h1
    cases hp : processMsgs reqSeq pid resType dg.msgs acc with
    | inl acc' =>
      simp only [hp] at h
      rcases ih acc' res h x hx with hl | ⟨dg', hdg', m', hm', hd⟩
      · rcases processMsgs_inl_provenance reqSeq pid resType dg.msgs acc
            acc' hp x hl with hl' | ⟨m', hm', hd⟩
        · exact Or.inl hl'
        · exact Or.inr ⟨dg, List.mem_cons_self dg rest, m', hm', hd⟩
      · exact Or.inr ⟨dg', List.mem_cons_of_mem dg hdg', m', hm', hd⟩
    | inr out =>
      simp only [hp] at h
      subst h
      rcases processMsgs_ok_provenance reqSeq pid resType dg.msgs acc
          res hp x hx with hl | ⟨m', hm', hd⟩
      · exact Or.inl hl
      · exact Or.inr ⟨dg, List.mem_cons_self dg rest, m', hm', hd⟩

theorem processMsgs_filter_invariant (reqSeq pid resType : Nat)
    (msgs : List NLMsg) :
    ∀ acc : List (List Nat),
      processMsgs reqSeq pid resType
          (msgs.filter (fun m => m.matches reqSeq pid)) acc
        = processMsgs reqSeq pid resType msgs acc := by
  induction msgs with
  | nil => intro acc; rfl
  | cons m rest ih =>
    intro acc
    by_cases hseq : m.header.nlmsg_seq = reqSeq
    · by_cases hpid : m.header.nlmsg_pid = pid
      · have hm : m.matches reqSeq pid = true := by
          simp [NLMsg.matches, hseq, hpid]
        simp [List.filter_cons, hm, processMsgs, hseq, hpid, ih]
      · have hm : m.matches reqSeq pid = false := by
          simp [NLMsg.matches, hpid]
        simp [List.filter_cons, hm, processMsgs, hseq, hpid, ih]
    · have hm : m.matches reqSeq pid = false := by
        simp [NLMsg.matches, hseq]
      simp [List.filter_cons, hm, processMsgs, hseq, ih]

theorem executeLoop_filter_invariant (reqSeq pid resType : Nat)
    (dgs : List Datagram) :
    ∀ acc : List (List Nat),
      executeLoop reqSeq pid resType
          (dgs.map fun dg =>
            ⟨dg.fromPid, dg.msgs.filter (fun m => m.matches reqSeq pid)⟩) acc
        = executeLoop reqSeq pid resType dgs acc := by
  induction dgs with
  | nil => intro acc; rfl
  | cons dg rest ih =>
    intro acc
    simp only [List.map_cons, executeLoop]
    rw [processMsgs_filter_invariant]
    cases processMsgs reqSeq pid resType dg.msgs acc with
    | inl acc' => simp only [ih]
    | inr out => rfl

/-- C1 (confirmed): every payload a transaction returns comes from a
framed message whose header `seq` equals the request's assigned sequence
number and whose header `pid` equals the socket's bound PID; messages
failing either comparison are skipped, and deleting all of them from the
received datagrams leaves the transaction's outcome unchanged. -/
theorem execute_filters_by_seq_pid (reqSeq pid resType : Nat)
    (dgs : List Datagram) (res : List (List Nat))
    (h : executeLoop reqSeq pid resType dgs [] = ExecOutcome.ok res) :
    (∀ x ∈ res, ∃ dg ∈ dgs, ∃ m ∈ dg.msgs, m.data = x
      ∧ m.header.nlmsg_seq = reqSeq ∧ m.header.nlmsg_pid = pid)
    ∧ executeLoop reqSeq pid resType
        (dgs.map fun dg =>
          ⟨dg.fromPid, dg.msgs.filter (fun m => m.matches reqSeq pid)⟩) []
      = ExecOutcome.ok res := by
  constructor
  · intro x hx
    rcases executeLoop_ok_provenance reqSeq pid resType dgs [] res h x hx with
      hl | hgood
    · exact absurd hl (List.not_mem_nil x)
    · exact hgood
  · rw [executeLoop_filter_invariant]
    exact h

/-- C1 witness: a single matching reply without `NLM_F_MULTI`. -/
theorem execute_filters_by_seq_pid_witness :
    (∀ x ∈ [[1, 2, 3]], ∃ dg ∈ [(⟨0, [⟨⟨20, 16, 0, 5, 7⟩, [1, 2, 3]⟩]⟩ :
        Datagram)], ∃ m ∈ dg.msgs, m.data = x
      ∧ m.header.nlmsg_seq = 5 ∧ m.header.nlmsg_pid = 7)
    ∧ executeLoop 5 7 0
        ([(⟨0, [⟨⟨20, 16, 0, 5, 7⟩, [1, 2, 3]⟩]⟩ : Datagram)].map fun dg =>
          ⟨dg.fromPid, dg.msgs.filter (fun m => m.matches 5 7)⟩) []
      = ExecOutcome.ok [[1, 2, 3]] :=
  execute_filters_by_seq_pid 5 7 0
    [⟨0, [⟨⟨20, 16, 0, 5, 7⟩, [1, 2, 3]⟩]⟩] [[1, 2, 3]] (by decide)

/-- C9 (confirmed): `link_get` expects exactly one reply from the
transaction: zero collected replies yield the *no link found* error,
two or more yield *multiple links found*, and exactly one is passed to
`link_deserialize` for the returned link. -/
theorem link_get_expects_one_reply (msgs : List (List Nat)) :
    (msgs = [] → linkGetDispatch msgs = Except.error "no link found")
    ∧ (∀ m, msgs = [m] → linkGetDispatch msgs = linkDeserialize m)
    ∧ (2 ≤ msgs.length →
        linkGetDispatch msgs = Except.error "multiple links found") := by
  refine ⟨?_, ?_, ?_⟩
  · intro h
    subst h
    rfl
  · intro m h
    subst h
    rfl
  · intro h
    rcases msgs with _ | ⟨a, _ | ⟨b, rest⟩⟩
    · simp at h
    · simp at h
    · rfl

/-- C9 witness: the three reply counts. -/
theorem link_get_expects_one_reply_witness :
    linkGetDispatch [] = Except.error "no link found"
    ∧ linkGetDispatch [[0, 0, 0, 0]] = linkDeserialize [0, 0, 0, 0]
    ∧ linkGetDispatch [[], []] = Except.error "multiple links found" :=
  ⟨(link_get_expects_one_reply []).1 rfl,
   (link_get_expects_one_reply [[0, 0, 0, 0]]).2.1 [0, 0, 0, 0] rfl,
   (link_get_expects_one_reply [[], []]).2.2 (by decide)⟩

theorem processMsgs_no_fault (reqSeq pid resType : Nat) (msgs : List NLMsg) :
    ∀ acc : List (List Nat),
      (∀ m ∈ msgs, m.header.nlmsg_seq = reqSeq → m.header.nlmsg_pid = pid →
        (m.header.nlmsg_type = NLMSG_DONE
          ∨ m.header.nlmsg_type = NLMSG_ERROR) →
        4 ≤ m.data.length) →
      processMsgs reqSeq pid resType msgs acc
        ≠ Sum.inr ExecOutcome.fault := by
  induction msgs with
  | nil =>
    intro acc hpre
    simp [processMsgs]
  | cons m rest ih =>
    intro acc hpre
    have hrest : ∀ m' ∈ rest, m'.header.nlmsg_seq = reqSeq →
        m'.header.nlmsg_pid = pid →
        (m'.header.nlmsg_type = NLMSG_DONE
          ∨ m'.header.nlmsg_type = NLMSG_ERROR) →
        4 ≤ m'.data.length :=
      fun m' hm' => hpre m' (List.mem_cons_of_mem m hm')
    simp only [processMsgs]
    split_ifs with h1 h2 h3 h4 h5 h6 h7
    · exact ih acc hrest
    · exact ih acc hrest
    · have := hpre m (List.mem_cons_self m rest) (by omega) (by omega) h3
      omega
    · simp
    · simp
    · exact ih acc hrest
    · simp
    · exact ih _ hrest

/-- C10 (confirmed): on a matching `NLMSG_DONE`/`NLMSG_ERROR` message,
`execute` reads the first 4 bytes of the payload as the signed errno
with no preceding length check: the receive loop cannot panic when every
matching terminator payload holds at least 4 bytes, and a matching
terminator with a shorter payload panics (`fault`). -/
theorem execute_terminator_needs_4_bytes (reqSeq pid resType : Nat) :
    (∀ dgs : List Datagram,
      (∀ dg ∈ dgs, ∀ m ∈ dg.msgs,
        m.header.nlmsg_seq = reqSeq → m.header.nlmsg_pid = pid →
        (m.header.nlmsg_type = NLMSG_DONE
          ∨ m.header.nlmsg_type = NLMSG_ERROR) →
        4 ≤ m.data.length) →
      executeLoop reqSeq pid resType dgs [] ≠ ExecOutcome.fault)
    ∧ executeLoop reqSeq pid resType
        [⟨PID_KERNEL, [⟨⟨16, NLMSG_DONE, 0, reqSeq, pid⟩, []⟩]⟩] []
      = ExecOutcome.fault := by
  constructor
  · suffices hgen : ∀ (dgs : List Datagram) (acc : List (List Nat)),
        (∀ dg ∈ dgs, ∀ m ∈ dg.msgs,
          m.header.nlmsg_seq = reqSeq → m.header.nlmsg_pid = pid →
          (m.header.nlmsg_type = NLMSG_DONE
            ∨ m.header.nlmsg_type = NLMSG_ERROR) →
          4 ≤ m.data.length) →
        executeLoop reqSeq pid resType dgs acc ≠ ExecOutcome.fault by
      intro dgs hpre
      exact hgen dgs [] hpre
    intro dgs
    induction dgs with
    | nil =>
      intro acc hpre
      simp [executeLoop]
    | cons dg rest ih =>
      intro acc hpre
      simp only [executeLoop]
      split_ifs with h1
      · simp
      · cases hp : processMsgs reqSeq pid resType dg.msgs acc with
        | inl acc' =>
          exact ih acc'
            (fun dg' hdg' => hpre dg' (List.mem_cons_of_mem dg hdg'))
        | inr out =>
          intro heq
          subst heq
          exact processMsgs_no_fault reqSeq pid resType dg.msgs acc
            (hpre dg (List.mem_cons_self dg rest)) hp
  · simp [executeLoop, processMsgs, PID_KERNEL, NLMSG_DONE, NLMSG_ERROR]

/-- C10 witness: a well-formed ack does not fault; an empty-payload
terminator does. -/
theorem execute_terminator_needs_4_bytes_witness :
    executeLoop 1 2 0 [⟨0, [⟨⟨20, 3, 0, 1, 2⟩, [0, 0, 0, 0]⟩]⟩] []
        ≠ ExecOutcome.fault
    ∧ executeLoop 1 2 0 [⟨0, [⟨⟨16, 3, 0, 1, 2⟩, []⟩]⟩] []
        = ExecOutcome.fault :=
  ⟨(execute_terminator_needs_4_bytes 1 2 0).1
      [⟨0, [⟨⟨20, 3, 0, 1, 2⟩, [0, 0, 0, 0]⟩]⟩] (by decide),
   (execute_terminator_needs_4_bytes 1 2 0).2⟩

end Theorems

end Lnwasi
